import Mathlib

/-!
Shallow embedding of the STAMP (RFC 8762) session-reflector data-plane core
from `src/headers/stamp.h`: the NTP timestamp codec (`timestamp` /
`untimestamp`), the frame classifier (`for_me`), the header turnaround
routine (`pkt_turnaround`), and the wire-layout offset helper
(`stampoffset`).

Modelling conventions:
- A packet buffer is a byte function `byte : Nat → Nat` together with its
  validated length `len` (`data_end - data` in the source); every byte
  value is read modulo the positions the source actually dereferences.
- Machine integers are `Nat` with explicit `% 2^32` / `% 2^64` exactly
  where the C code truncates (casts to `uint32_t`, `uint64_t` wraparound);
  where a C `uint64_t` operation provably cannot wrap for any
  representable input, the plain `Nat` operation is used.
- Network byte order is modelled concretely: `bpf_htonl` produces the
  4-byte big-endian memory image of a 32-bit value and `bpf_ntohl` decodes
  it, so the struct fields of `ntp_ts` are byte lists as laid out on the
  wire.  The source compares raw big-endian 16-bit wire fields against
  `bpf_htons`/`bpf_ntohs` of a constant, which on any host is equivalent
  to comparing the big-endian-decoded field against the constant; the
  embedding uses the decoded form (`read16BE`).
-/

/-- Header sizes on the wire: `sizeof(struct ethhdr)` = 14. -/
def sizeof_ethhdr : Nat := 14

/-- `sizeof(struct iphdr)` = 20 (no options, as addressed by the source). -/
def sizeof_iphdr : Nat := 20

/-- `sizeof(struct udphdr)` = 8. -/
def sizeof_udphdr : Nat := 8

/-- Byte width of the `uint32_t seq` field of `struct senderpkt`. -/
def sizeof_seq : Nat := 4

/-- EtherType of IPv4, `ETH_P_IP`. -/
def ETH_P_IP : Nat := 0x0800

/-- IP protocol number of UDP, `IPPROTO_UDP`. -/
def IPPROTO_UDP : Nat := 17

/-- The pass-through verdict value `TCX_PASS` (evaluates to 0). -/
def TCX_PASS : Nat := 0

/-- `bpf_htonl`: the 4-byte big-endian memory image of a 32-bit value,
modelling the network-byte-order `uint32_t` stored into the wire struct. -/
def bpf_htonl (x : Nat) : List Nat :=
  [x / 2 ^ 24 % 256, x / 2 ^ 16 % 256, x / 2 ^ 8 % 256, x % 256]

/-- `bpf_ntohl`: decode a 4-byte big-endian memory image back to a 32-bit
value (every field decoded by the source is a well-formed 4-byte image). -/
def bpf_ntohl : List Nat → Nat
  | [b0, b1, b2, b3] => b0 * 2 ^ 24 + b1 * 2 ^ 16 + b2 * 2 ^ 8 + b3
  | _ => 0

/-- `struct ntp_ts`: two 32-bit fields, each held here as its 4-byte
network-byte-order memory image. -/
structure ntp_ts where
  ntp_secs : List Nat
  ntp_fracs : List Nat

/-- `timestamp` from `src/headers/stamp.h`, parametrised by the clock value
`utns` (`bpf_ktime_get_tai_ns()`, a `uint64_t`, so `utns < 2^64`).  The
64-bit intermediates never wrap: `utns / 10^9 + 2208988800 < 2^64` and
`(utns % 10^9) * 1000 ≤ 999999999000 < 2^64`.  The `(uint32_t)` casts are
the `% 2^32`, and `bpf_htonl` stores each result big-endian. -/
def timestamp (utns : Nat) : ntp_ts :=
  { ntp_secs := bpf_htonl ((utns / 1000000000 + 2208988800) % 2 ^ 32),
    ntp_fracs := bpf_htonl (utns % 1000000000 * 1000 / 232 % 2 ^ 32) }

/-- `untimestamp` from `src/headers/stamp.h`.  `unix_s -= 2208988800` is a
`uint64_t` subtraction, so it wraps modulo `2^64` when `unix_s` is below
the epoch offset; `unix_s * 10^9` and the final addition are likewise
64-bit operations.  `unix_ns * 232` cannot wrap (`unix_ns < 2^32`). -/
def untimestamp (ts : ntp_ts) : Nat :=
  ((bpf_ntohl ts.ntp_secs + (2 ^ 64 - 2208988800)) % 2 ^ 64 * 1000000000 % 2 ^ 64
    + bpf_ntohl ts.ntp_fracs * 232 / 1000) % 2 ^ 64

/-- `struct __sk_buff`, restricted to what the core reads: the link-layer
protocol metadata field (here the big-endian-decoded EtherType), the
ingress interface index, the validated buffer length `data_end - data`,
and the buffer bytes. -/
structure SkBuff where
  protocol : Nat
  ifindex : Nat
  len : Nat
  byte : Nat → Nat

/-- Big-endian 16-bit read of two consecutive buffer bytes (how the raw
UDP port fields compare against `bpf_ntohs(862)` on any host). -/
def read16BE (b : Nat → Nat) (off : Nat) : Nat :=
  b off * 256 + b (off + 1)

/-- `for_me` from `src/headers/stamp.h`.  Byte 23 is `iph->protocol`
(offset 14 of the frame + offset 9 in `struct iphdr`); bytes 34-35 are
`udph->source` and 36-37 `udph->dest` (offset 42-8 of the frame).  The
length guards mirror `data + ... > data_end`. -/
def for_me (skb : SkBuff) : Nat :=
  if skb.protocol ≠ ETH_P_IP then TCX_PASS
  else if skb.len < sizeof_iphdr + sizeof_ethhdr then TCX_PASS
  else if skb.byte 23 ≠ IPPROTO_UDP then TCX_PASS
  else if skb.len < sizeof_iphdr + sizeof_udphdr + sizeof_ethhdr then TCX_PASS
  else if read16BE skb.byte 36 ≠ 862 ∨ read16BE skb.byte 34 ≠ 862 then TCX_PASS
  else 1

/-- The verdict returned by `pkt_turnaround`: `TCX_PASS`, or the value of
`bpf_redirect(ifindex, 0)` instructing redirection out that interface. -/
inductive TcxVerdict where
  | pass : TcxVerdict
  | redirect (ifindex : Nat) : TcxVerdict
deriving DecidableEq

/-- `bpf_skb_store_bytes(skb, off, vs, vs.length, 0)` as a pure update of
the byte function (all call sites in the source are in bounds). -/
def writeBytes (b : Nat → Nat) (off : Nat) (vs : List Nat) : Nat → Nat :=
  fun i => if off ≤ i ∧ i < off + vs.length then vs.getD (i - off) 0 else b i

/-- `pkt_turnaround` from `src/headers/stamp.h`.  Frame offsets: `saddr` at
14 + 12 = 26, `daddr` at 14 + 16 = 30, `h_dest` at 0, `h_source` at 6.
The source stores the old `daddr` into `saddr` and the old `saddr` into
`daddr`, then (after re-checking the link header) loads both 6-byte MAC
addresses and writes each into the other slot, returning
`bpf_redirect(skb->ifindex, 0)`. -/
def pkt_turnaround (skb : SkBuff) : SkBuff × TcxVerdict :=
  if skb.len < sizeof_ethhdr + sizeof_iphdr then (skb, .pass)
  else
    let src_ip := [skb.byte 26, skb.byte 27, skb.byte 28, skb.byte 29]
    let dest_ip := [skb.byte 30, skb.byte 31, skb.byte 32, skb.byte 33]
    let b1 := writeBytes skb.byte 26 dest_ip
    let b2 := writeBytes b1 30 src_ip
    if skb.len < sizeof_ethhdr then ({ skb with byte := b2 }, .pass)
    else
      let src_mac := [b2 6, b2 7, b2 8, b2 9, b2 10, b2 11]
      let dest_mac := [b2 0, b2 1, b2 2, b2 3, b2 4, b2 5]
      let b3 := writeBytes b2 6 dest_mac
      let b4 := writeBytes b3 0 src_mac
      ({ skb with byte := b4 }, .redirect skb.ifindex)

/-- `stampoffset` from `src/headers/stamp.h`: 32-bit addition of the three
header sizes to a protocol-field offset. -/
def stampoffset (offset : Nat) : Nat :=
  (sizeof_ethhdr + sizeof_iphdr + sizeof_udphdr + offset) % 2 ^ 32

/-- The intended per-byte effect of a completed turnaround: the two 6-byte
MAC fields exchanged (0-5 with 6-11), the two 4-byte IP address fields
exchanged (26-29 with 30-33), everything else untouched. -/
def turnSpecByte (b : Nat → Nat) (i : Nat) : Nat :=
  if i < 6 then b (i + 6)
  else if i < 12 then b (i - 6)
  else if 26 ≤ i ∧ i < 30 then b (i + 4)
  else if 30 ≤ i ∧ i < 34 then b (i - 4)
  else b i

/-- A concrete 42-byte IPv4/UDP frame whose UDP source port is 862 but
whose destination port is 0: byte 23 is `iph->protocol` = UDP, bytes
34-35 are the source port 862 = 0x035E big-endian. -/
def skbOnePort : SkBuff :=
  { protocol := 0x0800, ifindex := 1, len := 42,
    byte := fun i =>
      if i = 23 then 17 else if i = 34 then 3 else if i = 35 then 94 else 0 }

/-- A concrete 42-byte IPv4/UDP frame with source port = destination
port = 862. -/
def skb862 : SkBuff :=
  { protocol := 0x0800, ifindex := 1, len := 42,
    byte := fun i =>
      if i = 23 then 17
      else if i = 34 ∨ i = 36 then 3
      else if i = 35 ∨ i = 37 then 94 else 0 }

/-- A concrete frame shorter than link + network headers (20 bytes). -/
def skbShort : SkBuff :=
  { protocol := 0x0800, ifindex := 1, len := 20, byte := fun i => i % 256 }

/-- A concrete 42-byte frame with pairwise distinct header bytes, used to
instantiate the turnaround theorems. -/
def skbTurn : SkBuff :=
  { protocol := 0x0800, ifindex := 7, len := 42, byte := fun i => (i + 100) % 256 }

/-- C3: the seconds field written by `timestamp` is the big-endian image of
`(t / 10^9) + 2208988800` truncated to 32 bits, and the fraction field is
the big-endian image of `((t mod 10^9) * 1000) / 232` truncated to 32
bits, all intermediate arithmetic exact in 64 bits. -/
theorem C3_timestamp_fields (t : Nat) (h : t / 1000000000 + 2208988800 < 2 ^ 32) :
    (timestamp t).ntp_secs = bpf_htonl ((t / 1000000000 + 2208988800) % 2 ^ 32) ∧
    (timestamp t).ntp_fracs = bpf_htonl (t % 1000000000 * 1000 / 232 % 2 ^ 32) :=
  ⟨rfl, rfl⟩

/-- Witness for C3 at the concrete clock value 1700000000123456789. -/
theorem C3_timestamp_fields_witness :
    (timestamp 1700000000123456789).ntp_secs =
      bpf_htonl ((1700000000123456789 / 1000000000 + 2208988800) % 2 ^ 32) ∧
    (timestamp 1700000000123456789).ntp_fracs =
      bpf_htonl (1700000000123456789 % 1000000000 * 1000 / 232 % 2 ^ 32) :=
  C3_timestamp_fields 1700000000123456789 (by decide)

/-- Pointwise evaluation of the full store sequence of `pkt_turnaround`:
the four `bpf_skb_store_bytes` calls implement exactly `turnSpecByte`. -/
theorem turn_bytes_eval (b : Nat → Nat) (i : Nat) :
    (let b2 := writeBytes (writeBytes b 26 [b 30, b 31, b 32, b 33]) 30
        [b 26, b 27, b 28, b 29]
     writeBytes (writeBytes b2 6 [b2 0, b2 1, b2 2, b2 3, b2 4, b2 5]) 0
        [b2 6, b2 7, b2 8, b2 9, b2 10, b2 11] i) = turnSpecByte b i := by
  by_cases h6 : i < 6
  · interval_cases i <;> rfl
  · by_cases h12 : i < 12
    · have h6l : 6 ≤ i := by omega
      interval_cases i <;> rfl
    · by_cases hip1 : 26 ≤ i ∧ i < 30
      · obtain ⟨ha, hb⟩ := hip1
        interval_cases i <;> rfl
      · by_cases hip2 : 30 ≤ i ∧ i < 34
        · obtain ⟨ha, hb⟩ := hip2
          interval_cases i <;> rfl
        · have c1 : ¬(0 ≤ i ∧ i < 0 + 6) := by omega
          have c2 : ¬(6 ≤ i ∧ i < 6 + 6) := by omega
          have c3 : ¬(30 ≤ i ∧ i < 30 + 4) := by omega
          have c4 : ¬(26 ≤ i ∧ i < 26 + 4) := by omega
          simp only [writeBytes, turnSpecByte, List.length_cons, List.length_nil,
            if_neg c1, if_neg c2, if_neg c3, if_neg c4, if_neg h6, if_neg h12,
            if_neg hip1, if_neg hip2]

/-- `pkt_turnaround` as a single closed-form equation: either the frame is
too short and it is returned untouched with `TCX_PASS`, or both address
pairs are swapped and the verdict is a redirect to the ingress
interface. -/
theorem pkt_turnaround_eq (skb : SkBuff) :
    pkt_turnaround skb =
      if skb.len < sizeof_ethhdr + sizeof_iphdr then (skb, TcxVerdict.pass)
      else ({ skb with byte := fun i => turnSpecByte skb.byte i },
        TcxVerdict.redirect skb.ifindex) := by
  by_cases h : skb.len < sizeof_ethhdr + sizeof_iphdr
  · simp only [pkt_turnaround, if_pos h]
  · have h14 : ¬ skb.len < sizeof_ethhdr := by
      simp only [sizeof_ethhdr, sizeof_iphdr] at h ⊢
      omega
    simp only [pkt_turnaround, if_neg h, if_neg h14]
    congr 1
    congr 1
    funext i
    exact turn_bytes_eval skb.byte i

/-- The address swap of `turnSpecByte` is an involution on every byte. -/
theorem turnSpecByte_involutive (b : Nat → Nat) (i : Nat) :
    turnSpecByte (fun j => turnSpecByte b j) i = b i := by
  simp only [turnSpecByte]
  split_ifs <;> first | rfl | (congr 1; omega)

/-- C4: on a frame holding full link+network headers, `pkt_turnaround`
returns a redirect to the ingress interface and rewrites exactly the two
4-byte IP address fields and the two 6-byte MAC fields, swapping source
with destination in each pair; every other byte of the frame (UDP ports,
payload, everything else) is unchanged, as is the validated length. -/
theorem C4_turnaround_effect (skb : SkBuff)
    (h : sizeof_ethhdr + sizeof_iphdr ≤ skb.len) :
    (pkt_turnaround skb).2 = TcxVerdict.redirect skb.ifindex ∧
    (pkt_turnaround skb).1.len = skb.len ∧
    ∀ i, (pkt_turnaround skb).1.byte i = turnSpecByte skb.byte i := by
  have h' : ¬ skb.len < sizeof_ethhdr + sizeof_iphdr := by omega
  rw [pkt_turnaround_eq, if_neg h']
  exact ⟨rfl, rfl, fun i => rfl⟩

/-- Witness for C4 at the concrete 42-byte frame `skbTurn`, checked at a
swapped byte (offset 26, the IP source address) and an untouched one
(offset 20). -/
theorem C4_turnaround_effect_witness :
    sizeof_ethhdr + sizeof_iphdr ≤ skbTurn.len ∧
    (pkt_turnaround skbTurn).2 = TcxVerdict.redirect skbTurn.ifindex ∧
    (pkt_turnaround skbTurn).1.byte 26 = turnSpecByte skbTurn.byte 26 ∧
    (pkt_turnaround skbTurn).1.byte 20 = turnSpecByte skbTurn.byte 20 :=
  ⟨by decide, (C4_turnaround_effect skbTurn (by decide)).1,
    (C4_turnaround_effect skbTurn (by decide)).2.2 26,
    (C4_turnaround_effect skbTurn (by decide)).2.2 20⟩

/-- C5: on a frame shorter than a full link header plus network header,
`pkt_turnaround` returns the frame byte-for-byte unchanged together with
the pass-through verdict; nothing is mutated on a bounds failure. -/
theorem C5_turnaround_short (skb : SkBuff)
    (h : skb.len < sizeof_ethhdr + sizeof_iphdr) :
    pkt_turnaround skb = (skb, TcxVerdict.pass) := by
  rw [pkt_turnaround_eq, if_pos h]

/-- Witness for C5 at the concrete 20-byte frame `skbShort`. -/
theorem C5_turnaround_short_witness :
    skbShort.len < sizeof_ethhdr + sizeof_iphdr ∧
    pkt_turnaround skbShort = (skbShort, TcxVerdict.pass) :=
  ⟨by decide, C5_turnaround_short skbShort (by decide)⟩

/-- C6: applying `pkt_turnaround` twice to a frame holding full
link+network headers restores every byte of the frame, in particular both
the hardware-address pair and the network-address pair: the address swap
is its own inverse. -/
theorem C6_turnaround_involutive (skb : SkBuff)
    (h : sizeof_ethhdr + sizeof_iphdr ≤ skb.len) :
    ∀ i, (pkt_turnaround (pkt_turnaround skb).1).1.byte i = skb.byte i := by
  have h' : ¬ skb.len < sizeof_ethhdr + sizeof_iphdr := by omega
  intro i
  simp only [pkt_turnaround_eq, if_neg h']
  exact turnSpecByte_involutive skb.byte i

/-- Witness for C6 at the concrete frame `skbTurn`, checked at the IP
source address byte (offset 26) and a MAC byte (offset 3). -/
theorem C6_turnaround_involutive_witness :
    sizeof_ethhdr + sizeof_iphdr ≤ skbTurn.len ∧
    (pkt_turnaround (pkt_turnaround skbTurn).1).1.byte 26 = skbTurn.byte 26 ∧
    (pkt_turnaround (pkt_turnaround skbTurn).1).1.byte 3 = skbTurn.byte 3 :=
  ⟨by decide, C6_turnaround_involutive skbTurn (by decide) 26,
    C6_turnaround_involutive skbTurn (by decide) 3⟩

/-- C10: `pkt_turnaround` is all-or-nothing.  For every frame it either
returns the frame completely untouched with the pass-through verdict, or
completes both the IP and the MAC address swaps and redirects; the second
bounds check (link header only, after the IP swap) can never fail once
the initial link+network check has passed, so no partially swapped frame
is ever produced. -/
theorem C10_all_or_nothing (skb : SkBuff) :
    pkt_turnaround skb =
      if skb.len < sizeof_ethhdr + sizeof_iphdr then (skb, TcxVerdict.pass)
      else ({ skb with byte := fun i => turnSpecByte skb.byte i },
        TcxVerdict.redirect skb.ifindex) :=
  pkt_turnaround_eq skb

/-- C7: `stampoffset` adds the Ethernet, IPv4 and UDP header sizes to the
given protocol-field offset (32-bit arithmetic); in particular
`stampoffset 0` is exactly 14 + 20 + 8 = 42 and `stampoffset` of the
4-byte sequence-number width is 42 + 4 = 46. -/
theorem C7_stampoffset_correct :
    (∀ offset, stampoffset offset = (42 + offset) % 2 ^ 32) ∧
    stampoffset 0 = sizeof_ethhdr + sizeof_iphdr + sizeof_udphdr ∧
    stampoffset 0 = 42 ∧
    stampoffset sizeof_seq = sizeof_ethhdr + sizeof_iphdr + sizeof_udphdr + sizeof_seq ∧
    stampoffset sizeof_seq = 46 := by
  refine ⟨fun offset => ?_, by decide, by decide, by decide, by decide⟩
  simp only [stampoffset, sizeof_ethhdr, sizeof_iphdr, sizeof_udphdr]

/-- C8: every frame shorter than a full link header plus network header
is rejected (pass-through) by `for_me`, whatever the classifier metadata
and buffer contents are; no byte beyond the link header influences the
outcome. -/
theorem C8_classifier_short (skb : SkBuff)
    (h : skb.len < sizeof_ethhdr + sizeof_iphdr) :
    for_me skb = TCX_PASS := by
  unfold for_me
  by_cases hp : skb.protocol ≠ ETH_P_IP
  · rw [if_pos hp]
  · have h2 : skb.len < sizeof_iphdr + sizeof_ethhdr := by omega
    rw [if_neg hp, if_pos h2]

/-- Witness for C8 at the concrete 20-byte frame `skbShort`. -/
theorem C8_classifier_short_witness :
    skbShort.len < sizeof_ethhdr + sizeof_iphdr ∧ for_me skbShort = TCX_PASS :=
  ⟨by decide, C8_classifier_short skbShort (by decide)⟩

/-- C1 counterexample: `skbOnePort` passes every earlier classifier check
(IPv4 EtherType, 42-byte buffer, UDP protocol byte) and its UDP source
port is 862 while its destination port is not, yet `for_me` returns the
pass-through verdict — the code accepts only when both ports are 862. -/
theorem C1_counterexample :
    skbOnePort.protocol = ETH_P_IP ∧
    skbOnePort.byte 23 = IPPROTO_UDP ∧
    sizeof_iphdr + sizeof_udphdr + sizeof_ethhdr ≤ skbOnePort.len ∧
    read16BE skbOnePort.byte 34 = 862 ∧
    read16BE skbOnePort.byte 36 ≠ 862 ∧
    for_me skbOnePort = TCX_PASS := by
  decide

/-- C1 (amended): for every frame that passes the classifier's earlier
checks, `for_me` returns pass-through if and only if it is not the case
that both the UDP source port and the UDP destination port equal 862; it
accepts exactly when both ports equal 862, so a frame in which exactly
one of the two ports equals 862 is rejected. -/
theorem C1_port_check (skb : SkBuff) (h1 : skb.protocol = ETH_P_IP)
    (h2 : sizeof_iphdr + sizeof_udphdr + sizeof_ethhdr ≤ skb.len)
    (h3 : skb.byte 23 = IPPROTO_UDP) :
    (for_me skb = TCX_PASS ↔
      ¬(read16BE skb.byte 34 = 862 ∧ read16BE skb.byte 36 = 862)) ∧
    (for_me skb = 1 ↔
      read16BE skb.byte 34 = 862 ∧ read16BE skb.byte 36 = 862) := by
  unfold for_me
  have hnp : ¬ skb.protocol ≠ ETH_P_IP := by simp [h1]
  have hl1 : ¬ skb.len < sizeof_iphdr + sizeof_ethhdr := by
    simp only [sizeof_iphdr, sizeof_udphdr, sizeof_ethhdr] at h2 ⊢
    omega
  have hl2 : ¬ skb.len < sizeof_iphdr + sizeof_udphdr + sizeof_ethhdr := by omega
  have hup : ¬ skb.byte 23 ≠ IPPROTO_UDP := by simp [h3]
  rw [if_neg hnp, if_neg hl1, if_neg hup, if_neg hl2]
  by_cases hc : read16BE skb.byte 36 ≠ 862 ∨ read16BE skb.byte 34 ≠ 862
  · rw [if_pos hc]
    have hnot : ¬(read16BE skb.byte 34 = 862 ∧ read16BE skb.byte 36 = 862) := by
      rintro ⟨ha, hb⟩
      rcases hc with h0 | h0
      · exact h0 hb
      · exact h0 ha
    refine ⟨iff_of_true rfl hnot, iff_of_false ?_ hnot⟩
    simp [TCX_PASS]
  · rw [if_neg hc]
    push_neg at hc
    refine ⟨iff_of_false ?_ fun hn => hn ⟨hc.2, hc.1⟩, iff_of_true rfl ⟨hc.2, hc.1⟩⟩
    simp [TCX_PASS]

/-- Witness for the amended C1 at the concrete frame `skb862`, whose two
UDP ports both equal 862 and which `for_me` accepts. -/
theorem C1_port_check_witness :
    skb862.protocol = ETH_P_IP ∧
    skb862.byte 23 = IPPROTO_UDP ∧
    sizeof_iphdr + sizeof_udphdr + sizeof_ethhdr ≤ skb862.len ∧
    (for_me skb862 = 1 ↔
      read16BE skb862.byte 34 = 862 ∧ read16BE skb862.byte 36 = 862) :=
  ⟨by decide, by decide, by decide,
    (C1_port_check skb862 (by decide) (by decide) (by decide)).2⟩

/-- Decoding inverts encoding for any 32-bit value: the byte-order
round trip of the codec loses nothing. -/
theorem bpf_ntohl_htonl (x : Nat) (h : x < 2 ^ 32) : bpf_ntohl (bpf_htonl x) = x := by
  simp only [bpf_htonl, bpf_ntohl]
  omega

/-- Closed arithmetic form of the codec round trip when the protocol
seconds value fits in 32 bits: the seconds part survives exactly and the
nanosecond remainder comes back as `(frac mod 2^32) * 232 / 1000` where
`frac = remainder * 1000 / 232`. -/
theorem untimestamp_timestamp (t : Nat)
    (h2 : t / 1000000000 + 2208988800 < 2 ^ 32) :
    untimestamp (timestamp t) =
      t / 1000000000 * 1000000000
        + t % 1000000000 * 1000 / 232 % 2 ^ 32 * 232 / 1000 := by
  have hsec : (t / 1000000000 + 2208988800) % 2 ^ 32 = t / 1000000000 + 2208988800 :=
    Nat.mod_eq_of_lt h2
  have hfr : t % 1000000000 * 1000 / 232 % 2 ^ 32 < 2 ^ 32 := Nat.mod_lt _ (by norm_num)
  simp only [untimestamp, timestamp, hsec]
  rw [bpf_ntohl_htonl _ h2, bpf_ntohl_htonl _ hfr]
  have hwrap : (t / 1000000000 + 2208988800 + (2 ^ 64 - 2208988800)) % 2 ^ 64
      = t / 1000000000 := by omega
  rw [hwrap]
  have hmul : t / 1000000000 * 1000000000 % 2 ^ 64 = t / 1000000000 * 1000000000 := by
    omega
  rw [hmul]
  omega

/-- C2 counterexample: t = 999,999,999 ns lies in `[0, 2^63)` and its
seconds value fits after epoch adjustment, yet the round trip returns
3,567,586 ns — an error of about 996 ms, far beyond 232 ns, because the
encoded fraction wrapped modulo 2^32. -/
theorem C2_counterexample :
    999999999 < 2 ^ 63 ∧
    999999999 / 1000000000 + 2208988800 < 2 ^ 32 ∧
    untimestamp (timestamp 999999999) + 232 < 999999999 := by
  decide

/-- C2 (amended): for every nanosecond value t in `[0, 2^63)` whose
whole-second part plus the epoch offset fits in 32 bits and whose
sub-second remainder is below 996,432,413 ns (so that the encoded
fraction fits in 32 bits), the round trip `untimestamp (timestamp t)`
differs from t by at most 232 nanoseconds (and never overshoots). -/
theorem C2_roundtrip_bounded (t : Nat) (h1 : t < 2 ^ 63)
    (h2 : t / 1000000000 + 2208988800 < 2 ^ 32)
    (h3 : t % 1000000000 < 996432413) :
    untimestamp (timestamp t) ≤ t ∧ t - untimestamp (timestamp t) ≤ 232 := by
  rw [untimestamp_timestamp t h2]
  have hr : t % 1000000000 < 1000000000 := Nat.mod_lt _ (by norm_num)
  have hf : t % 1000000000 * 1000 / 232 ≤ 996432412000 / 232 :=
    Nat.div_le_div_right (by omega)
  norm_num at hf
  have hfm : t % 1000000000 * 1000 / 232 % 2 ^ 32 = t % 1000000000 * 1000 / 232 := by
    omega
  rw [hfm]
  omega

/-- Witness for the amended C2 at t = 1,700,000,000,123,456,789 ns. -/
theorem C2_roundtrip_bounded_witness :
    untimestamp (timestamp 1700000000123456789) ≤ 1700000000123456789 ∧
    1700000000123456789 - untimestamp (timestamp 1700000000123456789) ≤ 232 :=
  C2_roundtrip_bounded 1700000000123456789 (by decide) (by decide) (by decide)

/-- C9: the fraction field stored by `timestamp` is the low 32 bits of the
64-bit quotient `(t mod 10^9) * 1000 / 232`; whenever the sub-second
remainder is at least 996,432,413 ns that quotient exceeds `2^32 - 1`, the
stored fraction wraps modulo 2^32, and the round trip falls short of t by
more than 992 ms — far more than one fraction unit. -/
theorem C9_fraction_wrap (t : Nat)
    (h1 : t / 1000000000 + 2208988800 < 2 ^ 32)
    (h2 : 996432413 ≤ t % 1000000000) :
    (timestamp t).ntp_fracs = bpf_htonl (t % 1000000000 * 1000 / 232 % 2 ^ 32) ∧
    2 ^ 32 - 1 < t % 1000000000 * 1000 / 232 ∧
    untimestamp (timestamp t) ≤ t ∧
    992000000 < t - untimestamp (timestamp t) := by
  refine ⟨rfl, by omega, ?_⟩
  rw [untimestamp_timestamp t h1]
  have hr : t % 1000000000 < 1000000000 := Nat.mod_lt _ (by norm_num)
  have hd_up : t % 1000000000 * 1000 / 232 ≤ 999999999000 / 232 :=
    Nat.div_le_div_right (by omega)
  have hd_lo : 996432413000 / 232 ≤ t % 1000000000 * 1000 / 232 :=
    Nat.div_le_div_right (by omega)
  norm_num at hd_up hd_lo
  have hmod : t % 1000000000 * 1000 / 232 % 2 ^ 32
      = t % 1000000000 * 1000 / 232 - 4294967296 := by omega
  have hc_up : (t % 1000000000 * 1000 / 232 - 4294967296) * 232 / 1000 ≤ 3567586264 / 1000 :=
    Nat.div_le_div_right (by omega)
  norm_num at hc_up
  rw [hmod]
  omega

/-- Witness for C9 at t = 1,700,000,000,999,999,999 ns, whose remainder
999,999,999 ns triggers the 32-bit wrap of the fraction. -/
theorem C9_fraction_wrap_witness :
    (timestamp 1700000000999999999).ntp_fracs =
      bpf_htonl (1700000000999999999 % 1000000000 * 1000 / 232 % 2 ^ 32) ∧
    2 ^ 32 - 1 < 1700000000999999999 % 1000000000 * 1000 / 232 ∧
    untimestamp (timestamp 1700000000999999999) ≤ 1700000000999999999 ∧
    992000000 < 1700000000999999999 - untimestamp (timestamp 1700000000999999999) :=
  C9_fraction_wrap 1700000000999999999 (by decide) (by decide)
